import Mathlib

/-!
Verification of the DBFS-T transactional file-system core against its
natural-language specification.

The Rust sources are shallowly embedded:

* `src/log_manager.rs`  — `crc32`, `LogManager.append_data` / `read_data`,
  and the `BlockDevice` trait (modelled as a total byte map `Nat → Nat`;
  the trait exposes only `read_at` / `write_at` / `size`, it has no flush).
* `src/models.rs`       — `Extent`, `InodeMetadata`.
* `src/tx_engine.rs`    — `write_file_transactional`, `read_file`,
  `read_from_log`, `truncate_file`.
* `src/wal.rs`          — `WriteAheadLog` (`append`, `flush`, `recover`,
  `clear_txn`, `checkpoint`); the backing `WalStorage` is modelled after the
  `MockStorage` used by the repository's own tests in `src/dbfs_test.rs`
  (resize-and-copy on write, out-of-bounds read fails, truncate).
* `src/transaction.rs`  — `TransactionManager.commit`, `replay`.
* `src/operation.rs`    — `TransactionOperation` and `apply`.
* `src/rvfs2/common.rs` — `dbfs_write`, `dbfs_read`, `dbfs_create`,
  `dbfs_unlink`, `dbfs_rename`, `dbfs_truncate`, `dbfs_rmdir`;
  the jammdb store is modelled as buckets keyed by inode number, each an
  association list from string keys to values.

Machine integers (`u32`/`u64`/`usize`) are embedded as `Nat`; overflow never
occurs on the inputs considered.  `serde_json` is external to the repository
and is modelled by an injective length-structured byte codec with
`decodeEntry (encodeEntry e) = some e`, together with byte strings that the
decoder rejects — exactly the two properties the code relies on.
-/

namespace Dbfs

deriving instance DecidableEq for Except

/-! ## CRC-32 (`src/log_manager.rs`, `crc32`) -/

/-- One shift round of the CRC loop: `if crc & 1 != 0 { (crc >> 1) ^ 0xEDB88320 } else { crc >> 1 }`. -/
def crcRound (crc : Nat) : Nat :=
  if crc % 2 = 1 then (crc / 2) ^^^ 0xEDB88320 else crc / 2

/-- Per-byte step: `crc ^= byte as u32` followed by eight shift rounds. -/
def crcByte (crc b : Nat) : Nat :=
  crcRound^[8] (crc ^^^ b)

/-- `crc32` from `src/log_manager.rs`: seed `0xFFFFFFFF`, reflected polynomial
`0xEDB88320`, final complement (`!crc`, i.e. XOR with `0xFFFFFFFF`). -/
def crc32 (data : List Nat) : Nat :=
  (data.foldl crcByte 0xFFFFFFFF) ^^^ 0xFFFFFFFF

/-! ## Data model (`src/models.rs`) -/

/-- `Extent` from `src/models.rs`. -/
structure Extent where
  logical_off : Nat
  physical_ptr : Nat
  len : Nat
  crc : Nat
  deriving DecidableEq, Repr

/-- `InodeMetadata` from `src/models.rs`. -/
structure InodeMetadata where
  ino : Nat
  size : Nat
  mode : Nat
  nlink : Nat
  extents : List Extent
  atime : Nat
  mtime : Nat
  deriving DecidableEq, Repr

/-! ## Block device and log manager (`src/log_manager.rs`)

The `BlockDevice` trait has exactly three methods: `read_at`, `write_at`,
`size`.  We model the device as a total byte map; `write_at` updates a
contiguous range, `read_at` reads one. -/

def Device := Nat → Nat

/-- `BlockDevice.write_at pos data`: bytes `pos .. pos + data.length` become `data`. -/
def writeAt (dev : Device) (pos : Nat) (data : List Nat) : Device :=
  fun i => if pos ≤ i ∧ i < pos + data.length then data.getD (i - pos) 0 else dev i

/-- `LogManager.read_data pos` into a buffer of length `n`. -/
def readData (dev : Device) (pos n : Nat) : List Nat :=
  (List.range n).map (fun j => dev (pos + j))

/-- Errors of `DbfsResult` as used by `src/tx_engine.rs`. -/
inductive DbfsError where
  | notFound
  | io
  | other
  deriving DecidableEq, Repr

/-- Engine state: the block device, the log cursor `next_append_pos`
(`src/log_manager.rs`), and the `inodes` bucket of the jammdb store. -/
structure EngState where
  dev : Device
  nextPos : Nat
  inodes : Nat → Option InodeMetadata

/-- Device-level events of one engine operation, used to examine the order of
the payload write, any flush, and the KV commit. -/
inductive Event where
  | devWrite (pos : Nat) (data : List Nat)
  | devFlush
  | kvCommit
  deriving DecidableEq, Repr

/-! ## `TransactionEngine::write_file_transactional` (`src/tx_engine.rs` lines 17–53)

Step 1 appends the payload via `LogManager.append_data` (a plain
`device.write_at` at `next_append_pos`, advancing the cursor); steps 2–3 read
and rewrite the inode record; step 4 commits.  There is no flush call — the
`BlockDevice` trait does not even declare one. -/

def write_file_transactional (s : EngState) (ino offset : Nat) (data : List Nat) :
    Except DbfsError Unit × EngState × List Event :=
  -- append_data: write at next_append_pos, advance cursor, return old position
  let p_ptr := s.nextPos
  let dev' := writeAt s.dev p_ptr data
  let s1 : EngState := { s with dev := dev', nextPos := s.nextPos + data.length }
  match s1.inodes ino with
  | none => (Except.error DbfsError.notFound, s1, [Event.devWrite p_ptr data])
  | some meta =>
      let meta' : InodeMetadata :=
        { meta with
          extents := meta.extents ++
            [{ logical_off := offset, physical_ptr := p_ptr,
               len := data.length, crc := crc32 data }],
          size := max meta.size (offset + data.length) }
      (Except.ok (),
       { s1 with inodes := fun i => if i = ino then some meta' else s1.inodes i },
       [Event.devWrite p_ptr data, Event.kvCommit])

/-- Replace `repl.length` bytes of `buf` starting at `off`
(`buf[off..off+repl.len()].copy_from_slice(&repl)`). -/
def copyIntoBuf (buf : List Nat) (off : Nat) (repl : List Nat) : List Nat :=
  buf.take off ++ repl ++ buf.drop (off + repl.length)

/-- The `for extent in &meta.extents` loop of `read_file`
(`src/tx_engine.rs` lines 73–96), including the early `break` once
`total_read >= read_len`.  Returns the buffer and `total_read`. -/
def readFileLoop (dev : Device) (offset read_len : Nat) :
    List Extent → List Nat → Nat → List Nat × Nat
  | [], buf, total_read => (buf, total_read)
  | e :: rest, buf, total_read =>
      if total_read ≥ read_len then (buf, total_read)
      else
        let extent_end := e.logical_off + e.len
        let request_end := offset + read_len
        if e.logical_off < request_end ∧ extent_end > offset then
          let overlap_start := max e.logical_off offset
          let overlap_end := min extent_end request_end
          let extent_offset := overlap_start - e.logical_off
          let buf_offset := overlap_start - offset
          let copy_len := overlap_end - overlap_start
          let temp_buf := readData dev (e.physical_ptr + extent_offset) copy_len
          readFileLoop dev offset read_len rest
            (copyIntoBuf buf buf_offset temp_buf)
            (max total_read (buf_offset + copy_len))
        else
          readFileLoop dev offset read_len rest buf total_read

/-- `TransactionEngine::read_file` (`src/tx_engine.rs` lines 56–99).
The caller's buffer is passed in and returned alongside the byte count. -/
def read_file (s : EngState) (ino offset : Nat) (buf : List Nat) :
    Except DbfsError (Nat × List Nat) :=
  match s.inodes ino with
  | none => Except.error DbfsError.notFound
  | some meta =>
      if offset ≥ meta.size then Except.ok (0, buf)
      else
        let read_len := min buf.length (meta.size - offset)
        let r := readFileLoop s.dev offset read_len meta.extents buf 0
        Except.ok (r.2, r.1)

/-! ## `TransactionEngine::read_from_log` (`src/tx_engine.rs` lines 259–295)

The `while` loop advances `buf_pos` / `current_offset`; at each step it takes
the **first** extent in the vector containing `current_offset`
(`meta.extents.iter().find(...)`) and stops at the first hole (`break`). -/

def readFromLogLoop (dev : Device) (meta : InodeMetadata) (buf : List Nat)
    (buf_pos current_offset bytes_read : Nat) : List Nat × Nat :=
  if h : buf_pos < buf.length ∧ current_offset < meta.size then
    match meta.extents.find? (fun e =>
        decide (current_offset ≥ e.logical_off) &&
        decide (current_offset < e.logical_off + e.len)) with
    | some e =>
        let off_in_extent := current_offset - e.logical_off
        let len_in_extent := min (e.len - off_in_extent) (buf.length - buf_pos)
        let temp := readData dev (e.physical_ptr + off_in_extent) len_in_extent
        -- The guard below only witnesses termination: `find?` returns an
        -- extent satisfying its predicate, so `len_in_extent` is positive and
        -- the `else` branch is unreachable.
        if hprog : 0 < len_in_extent then
          readFromLogLoop dev meta (copyIntoBuf buf buf_pos temp)
            (buf_pos + len_in_extent) (current_offset + len_in_extent)
            (bytes_read + len_in_extent)
        else (buf, bytes_read)
    | none => (buf, bytes_read)
  else (buf, bytes_read)
  termination_by meta.size - current_offset
  decreasing_by omega

/-- `TransactionEngine::read_from_log`: zero result at or past EOF, otherwise
run the loop from the requested offset. -/
def read_from_log (dev : Device) (meta : InodeMetadata) (offset : Nat) (buf : List Nat) :
    List Nat × Nat :=
  if offset ≥ meta.size then (buf, 0)
  else readFromLogLoop dev meta buf 0 offset 0

/-! ## Concrete engine states used as counterexamples and witnesses -/

/-- A fresh regular file inode, number 2, no extents. -/
def freshMeta : InodeMetadata :=
  { ino := 2, size := 0, mode := 0o100644, nlink := 1, extents := [], atime := 0, mtime := 0 }

/-- Engine state holding only the fresh inode 2 over a zeroed device. -/
def s0 : EngState :=
  { dev := fun _ => 0, nextPos := 0,
    inodes := fun i => if i = 2 then some freshMeta else none }

/-- State after `write_file_transactional s0 2 0 [7, 7]`. -/
def s1c : EngState := (write_file_transactional s0 2 0 [7, 7]).2.1

/-- State after a second write `write_file_transactional s1c 2 0 [9, 9]`. -/
def s2c : EngState := (write_file_transactional s1c 2 0 [9, 9]).2.1

/-- An inode whose single extent covers `[4, 6)` of a 6-byte file, leaving the
hole `[0, 4)`; its payload lives at log offsets 100–101. -/
def holeMeta : InodeMetadata :=
  { ino := 2, size := 6, mode := 0o100644, nlink := 1,
    extents := [{ logical_off := 4, physical_ptr := 100, len := 2, crc := 0 }],
    atime := 0, mtime := 0 }

/-- Device holding bytes 11, 12 at log offsets 100, 101. -/
def holeDev : Device := fun i => if i = 100 then 11 else if i = 101 then 12 else 0

/-- Engine state exposing `holeMeta` as inode 2. -/
def holeState : EngState :=
  { dev := holeDev, nextPos := 200,
    inodes := fun i => if i = 2 then some holeMeta else none }

/-! ## The rvfs2 store model (`src/rvfs2/common.rs`)

In the rvfs2 surface every inode is a jammdb bucket keyed by the inode
number; a bucket maps string keys (metadata keys, `data_<block>` keys, and
directory-entry names) to values.  Fixed-width big-endian integer values are
abstracted to `Val.num` (the encoding is injective), byte payloads to
`Val.bytes`. -/

inductive Val where
  | num (n : Nat)
  | bytes (bs : List Nat)
  deriving DecidableEq, Repr

abbrev Bucket := List (String × Val)

/-- `bucket.get k` of jammdb: the entry with key `k`, if any. -/
def bucketGet (b : Bucket) (k : String) : Option Val :=
  (b.find? (fun kv => decide (kv.1 = k))).map (fun kv => kv.2)

/-- `bucket.put k v`: replace the value under `k`, or add the entry. -/
def bucketPut : Bucket → String → Val → Bucket
  | [], k, v => [(k, v)]
  | (k', v') :: rest, k, v =>
      if k' = k then (k, v) :: rest else (k', v') :: bucketPut rest k v

/-- `bucket.delete k`. -/
def bucketDelete : Bucket → String → Bucket
  | [], _ => []
  | (k', v') :: rest, k => if k' = k then rest else (k', v') :: bucketDelete rest k

/-- Read a `Val` as the `u64` the code expects (`crate::usize!` / `u64!`). -/
def valNum (v : Option Val) (dflt : Nat) : Nat :=
  match v with
  | some (Val.num n) => n
  | _ => dflt

/-- Error cases of `DbfsResult` as surfaced by `src/rvfs2/common.rs`. -/
inductive FsErr where
  | eexist
  | noEntry
  | notEmpty
  | other
  deriving DecidableEq, Repr

/-- Store state: buckets keyed by inode number, plus `DBFS_INODE_NUMBER`
(the global allocation counter of `src/inode_common.rs`). -/
structure FsState where
  db : Nat → Option Bucket
  nextIno : Nat

def dbPut (db : Nat → Option Bucket) (ino : Nat) (b : Bucket) : Nat → Option Bucket :=
  fun i => if i = ino then some b else db i

def dbDel (db : Nat → Option Bucket) (ino : Nat) : Nat → Option Bucket :=
  fun i => if i = ino then none else db i

/-- `DbfsFileType` (file / dir / symlink) as matched in `dbfs_create`. -/
inductive DbfsFileType where
  | file
  | dir
  | symlink
  deriving DecidableEq, Repr

/-- `dbfs_write` (`src/rvfs2/common.rs` lines 39–59): put the whole payload
under `data_{offset / 4096}`, commit, then max the `size` key.  Returns the
payload length. -/
def dbfs_write (fs : FsState) (number : Nat) (buf : List Nat) (offset : Nat) :
    Except FsErr (FsState × Nat) :=
  match fs.db number with
  | none => Except.error FsErr.noEntry
  | some b =>
      let data_key := "data_" ++ toString (offset / 4096)
      let b1 := bucketPut b data_key (Val.bytes buf)
      let current_size := valNum (bucketGet b1 "size") 0
      let new_size := max current_size (offset + buf.length)
      let b2 := bucketPut b1 "size" (Val.num new_size)
      Except.ok ({ fs with db := dbPut fs.db number b2 }, buf.length)

/-- The eight metadata entries `dbfs_create` writes into a fresh inode
bucket (in put order); there are no `.`/`..` entries among them. -/
def mkInodeBucket (final_mode uid gid : Nat) : Bucket :=
  [("mode", Val.num final_mode), ("size", Val.num 0),
   ("hard_links", Val.num 1), ("uid", Val.num uid), ("gid", Val.num gid),
   ("atime", Val.num 0), ("mtime", Val.num 0), ("ctime", Val.num 0)]

/-- `dbfs_create` (`src/rvfs2/common.rs` lines 159–217): refuse an existing
name, allocate `DBFS_INODE_NUMBER`, create the inode bucket with its eight
metadata keys (no `.`/`..` entries), add the parent entry, and bump the
parent's `hard_links` when a directory is created. -/
def dbfs_create (fs : FsState) (parent : Nat) (name : String)
    (file_type : DbfsFileType) (uid gid : Nat) (mode : Nat) :
    Except FsErr (FsState × Nat) :=
  match fs.db parent with
  | none => Except.error FsErr.noEntry
  | some pb =>
      if (bucketGet pb name).isSome then Except.error FsErr.eexist
      else
        let ino := fs.nextIno
        if (fs.db ino).isSome then Except.error FsErr.other  -- create_bucket fails
        else
          let final_mode :=
            match file_type with
            | DbfsFileType.file => mode ||| 0o100000
            | DbfsFileType.dir => mode ||| 0o040000
            | DbfsFileType.symlink => mode ||| 0o120000
          let nb : Bucket := mkInodeBucket final_mode uid gid
          let pb1 := bucketPut pb name (Val.num ino)
          let pb2 :=
            if file_type = DbfsFileType.dir then
              bucketPut pb1 "hard_links"
                (Val.num (valNum (bucketGet pb1 "hard_links") 2 + 1))
            else pb1
          Except.ok
            ({ db := dbPut (dbPut fs.db ino nb) parent pb2, nextIno := ino + 1 }, ino)

/-- `dbfs_unlink` (`src/rvfs2/common.rs` lines 274–307): remove the entry,
then delete the inode bucket when `hard_links ≤ 1`, else decrement it. -/
def dbfs_unlink (fs : FsState) (parent : Nat) (name : String) :
    Except FsErr FsState :=
  match fs.db parent with
  | none => Except.error FsErr.noEntry
  | some pb =>
      match bucketGet pb name with
      | none => Except.error FsErr.noEntry
      | some v =>
          let ino := valNum (some v) 0
          let pb1 := bucketDelete pb name
          match fs.db ino with
          | none => Except.error FsErr.noEntry
          | some ib =>
              let links := valNum (bucketGet ib "hard_links") 1
              if links ≤ 1 then
                Except.ok { fs with db := dbDel (dbPut fs.db parent pb1) ino }
              else
                Except.ok
                  { fs with db := (dbPut (dbPut fs.db parent pb1) ino
                      (bucketPut ib "hard_links" (Val.num (links - 1)))) }

/-- `dbfs_rename` (`src/rvfs2/common.rs` lines 343–378). -/
def dbfs_rename (fs : FsState) (old_parent : Nat) (old_name : String)
    (new_parent : Nat) (new_name : String) : Except FsErr FsState :=
  match fs.db old_parent with
  | none => Except.error FsErr.noEntry
  | some ob =>
      match bucketGet ob old_name with
      | none => Except.error FsErr.noEntry
      | some v =>
          let ino := valNum (some v) 0
          let ob1 := bucketDelete ob old_name
          if old_parent = new_parent then
            Except.ok
              { fs with db := dbPut fs.db old_parent (bucketPut ob1 new_name (Val.num ino)) }
          else
            match fs.db new_parent with
            | none => Except.error FsErr.noEntry
            | some nb =>
                Except.ok
                  { fs with db := (dbPut (dbPut fs.db old_parent ob1) new_parent
                      (bucketPut nb new_name (Val.num ino))) }

/-- Strip leading `data_` prefixes from a key's characters, as
`trim_start_matches("data_")` does (repeatedly). -/
def stripAux : List Char → List Char
  | 'd' :: 'a' :: 't' :: 'a' :: '_' :: rest => stripAux rest
  | cs => cs

/-- `key.trim_start_matches("data_")`. -/
def stripDataKey (s : String) : String := String.mk (stripAux s.data)

/-- `dbfs_truncate` (`src/rvfs2/common.rs` lines 122–156): set `size`, then
drop every `data_<k>` block with `k ≥ ceil(size / 4096)`. -/
def dbfs_truncate (fs : FsState) (number : Nat) (size : Nat) :
    Except FsErr FsState :=
  match fs.db number with
  | none => Except.error FsErr.noEntry
  | some b =>
      let b1 := bucketPut b "size" (Val.num size)
      let start_block := (size + 4096 - 1) / 4096
      let b2 := b1.filter (fun kv =>
        !(kv.1.startsWith "data_" &&
          match (stripDataKey kv.1).toNat? with
          | some blk => decide (blk ≥ start_block)
          | none => false))
      Except.ok { fs with db := dbPut fs.db number b2 }

/-- The metadata key prefixes that `dbfs_rmdir`'s emptiness scan skips
(note: `data_` is **not** among them in the source). -/
def isMetaKey (k : String) : Bool :=
  k.startsWith "mode" || k.startsWith "size" || k.startsWith "uid" ||
  k.startsWith "gid" || k.startsWith "atime" || k.startsWith "mtime" ||
  k.startsWith "ctime" || k.startsWith "hard_links"

/-- `dbfs_rmdir` (`src/rvfs2/common.rs` lines 430–483): refuse when the
directory's bucket holds any key outside the metadata prefixes; otherwise
remove the entry, delete the bucket, and decrement the parent's links. -/
def dbfs_rmdir (fs : FsState) (parent : Nat) (name : String) :
    Except FsErr FsState :=
  match fs.db parent with
  | none => Except.error FsErr.noEntry
  | some pb =>
      match bucketGet pb name with
      | none => Except.error FsErr.noEntry
      | some v =>
          let ino := valNum (some v) 0
          match fs.db ino with
          | none => Except.error FsErr.noEntry
          | some dirb =>
              let is_empty := dirb.all (fun kv => isMetaKey kv.1)
              if ¬ is_empty then Except.error FsErr.notEmpty
              else
                let pb1 := bucketDelete pb name
                let pb2 := bucketPut pb1 "hard_links"
                  (Val.num (valNum (bucketGet pb1 "hard_links") 2 - 1))
                Except.ok { fs with db := dbPut (dbDel fs.db ino) parent pb2 }

/-- The root inode bucket written by `dbfs_common_root_inode`
(`src/fs_common.rs`): mode `S_IFDIR | 0o755`, two hard links, no size key,
and — like every directory here — no `.`/`..` entries. -/
def rootBucket : Bucket :=
  [("mode", Val.num (0o040000 ||| 0o755)), ("hard_links", Val.num 2),
   ("uid", Val.num 0), ("gid", Val.num 0),
   ("atime", Val.num 0), ("mtime", Val.num 0), ("ctime", Val.num 0)]

/-- A freshly formatted store: the root inode only, next inode number 2. -/
def fs0 : FsState :=
  { db := fun i => if i = 1 then some rootBucket else none, nextIno := 2 }

/-! ## Logical operations (`src/operation.rs`) -/

/-- `TransactionOperation` from `src/operation.rs`. -/
inductive TransactionOperation where
  | write (ino : Nat) (offset : Nat) (data : List Nat)
  | create (parent_ino : Nat) (name : String) (uid gid perm : Nat) (dev : Option Nat)
  | delete (parent_ino : Nat) (name : String)
  | rename (old_parent_ino : Nat) (old_name : String)
      (new_parent_ino : Nat) (new_name : String)
  | mkdir (parent_ino : Nat) (name : String) (uid gid perm : Nat)
  | truncate (ino : Nat) (length : Nat)
  deriving DecidableEq, Repr

/-- Error strings as produced at the rvfs2 surface. -/
def errMsg : FsErr → String
  | FsErr.eexist => "File exists"
  | FsErr.noEntry => "File not found"
  | FsErr.notEmpty => "Directory not empty"
  | FsErr.other => "Other"

/-- Modelled from the spec: `TransactionOperation::apply` (`src/operation.rs`
lines 45–99) dispatches to `crate::common::dbfs_write` / `dbfs_create` /
`dbfs_unlink` / `dbfs_rename` / `dbfs_truncate`.  The module `crate::common`
is declared in `src/lib.rs` but its source file is not in the repository
snapshot; per the spec (§4.4.2–4.4.3) these are the FS operation surface
functions, which the repository realizes in `src/rvfs2/common.rs` under the
same names, embedded above — so `apply` dispatches to those embeddings.
Extra uid/gid/timestamp arguments in the missing signatures have no
counterpart here and are dropped; `Mkdir`'s `perm | S_IFDIR` becomes the
directory file type, exactly as `dbfs_create` ors the type bit in. -/
def TransactionOperation.apply (op : TransactionOperation) (fs : FsState) :
    Except String FsState :=
  match op with
  | TransactionOperation.write ino offset data =>
      match dbfs_write fs ino data offset with
      | Except.error e => Except.error ("Write error: " ++ errMsg e)
      | Except.ok r => Except.ok r.1
  | TransactionOperation.create parent_ino name uid gid perm _dev =>
      match dbfs_create fs parent_ino name DbfsFileType.file uid gid perm with
      | Except.error e => Except.error ("Create error: " ++ errMsg e)
      | Except.ok r => Except.ok r.1
  | TransactionOperation.delete parent_ino name =>
      match dbfs_unlink fs parent_ino name with
      | Except.error e => Except.error ("Delete error: " ++ errMsg e)
      | Except.ok fs' => Except.ok fs'
  | TransactionOperation.rename old_parent_ino old_name new_parent_ino new_name =>
      match dbfs_rename fs old_parent_ino old_name new_parent_ino new_name with
      | Except.error e => Except.error ("Rename error: " ++ errMsg e)
      | Except.ok fs' => Except.ok fs'
  | TransactionOperation.mkdir parent_ino name uid gid perm =>
      match dbfs_create fs parent_ino name DbfsFileType.dir uid gid perm with
      | Except.error e => Except.error ("Mkdir error: " ++ errMsg e)
      | Except.ok r => Except.ok r.1
  | TransactionOperation.truncate ino length =>
      match dbfs_truncate fs ino length with
      | Except.error e => Except.error ("Truncate error: " ++ errMsg e)
      | Except.ok fs' => Except.ok fs'

/-! ## WAL entry codec

`serde_json::to_vec` / `from_slice` on `WalEntry` are external library code;
they are modelled by an injective length-structured byte codec with a total
decoder, preserving the two properties the WAL relies on: decoding inverts
encoding, and some byte strings fail to decode. -/

/-- `WalEntry` from `src/wal.rs`. -/
structure WalEntry where
  txn_id : Nat
  operation : TransactionOperation
  deriving DecidableEq, Repr

/-- `k`-byte little-endian encoding of `n`. -/
def natLE (k n : Nat) : List Nat :=
  (List.range k).map (fun i => n / 256 ^ i % 256)

/-- Little-endian decoding. -/
def fromLE (bs : List Nat) : Nat :=
  bs.foldr (fun b acc => b % 256 + 256 * acc) 0

/-- Length-prefixed string encoding (one length cell, then the characters). -/
def encStr (s : String) : List Nat :=
  s.length :: s.data.map Char.toNat

def encOpt : Option Nat → List Nat
  | none => [0]
  | some n => 1 :: natLE 4 n

/-- The operation payload: a tag cell followed by the fields. -/
def encodeOp : TransactionOperation → List Nat
  | TransactionOperation.write ino offset data =>
      0 :: (natLE 8 ino ++ natLE 8 offset ++ natLE 4 data.length ++ data)
  | TransactionOperation.create parent name uid gid perm dev =>
      1 :: (natLE 8 parent ++ encStr name ++ natLE 4 uid ++ natLE 4 gid ++
        natLE 4 perm ++ encOpt dev)
  | TransactionOperation.delete parent name =>
      2 :: (natLE 8 parent ++ encStr name)
  | TransactionOperation.rename op_ on_ np nn =>
      3 :: (natLE 8 op_ ++ encStr on_ ++ natLE 8 np ++ encStr nn)
  | TransactionOperation.mkdir parent name uid gid perm =>
      4 :: (natLE 8 parent ++ encStr name ++ natLE 4 uid ++ natLE 4 gid ++ natLE 4 perm)
  | TransactionOperation.truncate ino length =>
      5 :: (natLE 8 ino ++ natLE 8 length)

/-- `serde_json::to_vec(&entry)`: transaction id, then the operation. -/
def encodeEntry (e : WalEntry) : List Nat :=
  natLE 8 e.txn_id ++ encodeOp e.operation

def readN (k : Nat) (bs : List Nat) : Option (List Nat × List Nat) :=
  if k ≤ bs.length then some (bs.take k, bs.drop k) else none

def readNat (k : Nat) (bs : List Nat) : Option (Nat × List Nat) :=
  (readN k bs).map (fun r => (fromLE r.1, r.2))

def readStr (bs : List Nat) : Option (String × List Nat) :=
  match bs with
  | [] => none
  | n :: rest =>
      (readN n rest).map (fun r => (String.mk (r.1.map Char.ofNat), r.2))

def decodeOp (bs : List Nat) : Option (TransactionOperation × List Nat) :=
  match bs with
  | 0 :: r => do
      let (ino, r) ← readNat 8 r
      let (offset, r) ← readNat 8 r
      let (len, r) ← readNat 4 r
      let (data, r) ← readN len r
      pure (TransactionOperation.write ino offset data, r)
  | 1 :: r => do
      let (parent, r) ← readNat 8 r
      let (name, r) ← readStr r
      let (uid, r) ← readNat 4 r
      let (gid, r) ← readNat 4 r
      let (perm, r) ← readNat 4 r
      match r with
      | 0 :: r => pure (TransactionOperation.create parent name uid gid perm none, r)
      | 1 :: r => do
          let (d, r) ← readNat 4 r
          pure (TransactionOperation.create parent name uid gid perm (some d), r)
      | _ => none
  | 2 :: r => do
      let (parent, r) ← readNat 8 r
      let (name, r) ← readStr r
      pure (TransactionOperation.delete parent name, r)
  | 3 :: r => do
      let (op_, r) ← readNat 8 r
      let (on_, r) ← readStr r
      let (np, r) ← readNat 8 r
      let (nn, r) ← readStr r
      pure (TransactionOperation.rename op_ on_ np nn, r)
  | 4 :: r => do
      let (parent, r) ← readNat 8 r
      let (name, r) ← readStr r
      let (uid, r) ← readNat 4 r
      let (gid, r) ← readNat 4 r
      let (perm, r) ← readNat 4 r
      pure (TransactionOperation.mkdir parent name uid gid perm, r)
  | 5 :: r => do
      let (ino, r) ← readNat 8 r
      let (length, r) ← readNat 8 r
      pure (TransactionOperation.truncate ino length, r)
  | _ => none

/-- `serde_json::from_slice::<WalEntry>`: rejects trailing bytes. -/
def decodeEntry (bs : List Nat) : Option WalEntry :=
  match readNat 8 bs with
  | none => none
  | some (t, r) =>
      match decodeOp r with
      | some (op, []) => some { txn_id := t, operation := op }
      | _ => none

/-! ## WAL storage (`WalStorage`, modelled after `MockStorage` in
`src/dbfs_test.rs`: write resizes with zero fill then copies; read fails out
of bounds; truncate keeps a prefix). -/

def storeWrite (st : List Nat) (offset : Nat) (data : List Nat) : List Nat :=
  let st' := if st.length < offset + data.length
             then st ++ List.replicate (offset + data.length - st.length) 0
             else st
  st'.take offset ++ data ++ st'.drop (offset + data.length)

/-! ## `WriteAheadLog` (`src/wal.rs`) -/

/-- `WriteAheadLog`: the in-memory entry list, the optional backing storage
(byte contents), and the append cursor. -/
structure WriteAheadLog where
  entries : List WalEntry
  storage : Option (List Nat)
  next_offset : Nat

/-- `WriteAheadLog::new()`: no entries, **no storage**, offset 0. -/
def WriteAheadLog.new : WriteAheadLog :=
  { entries := [], storage := none, next_offset := 0 }

/-- Core of `WriteAheadLog::append` (always returns `Ok` — serialization and
the mock storage writes are infallible): persist `[len:u32 LE][payload]` when
storage is present, then push the entry in memory.  With no storage, nothing
is persisted and the cursor does not move. -/
def appendCore (w : WriteAheadLog) (txn_id : Nat) (op : TransactionOperation) :
    WriteAheadLog :=
  let entry : WalEntry := { txn_id := txn_id, operation := op }
  let data := encodeEntry entry
  match w.storage with
  | some st =>
      let st1 := storeWrite st w.next_offset (natLE 4 data.length)
      let st2 := storeWrite st1 (w.next_offset + 4) data
      { entries := w.entries ++ [entry], storage := some st2,
        next_offset := w.next_offset + 4 + data.length }
  | none => { w with entries := w.entries ++ [entry] }

/-- `WriteAheadLog::append`, with its `Result<(), String>` signature. -/
def WriteAheadLog.append (w : WriteAheadLog) (txn_id : Nat)
    (op : TransactionOperation) : Except String WriteAheadLog :=
  Except.ok (appendCore w txn_id op)

/-- `WriteAheadLog::flush`: delegates to the storage flush (a no-op for the
mock storage); `Ok` when storage is absent. -/
def WriteAheadLog.flush (_w : WriteAheadLog) : Except String Unit :=
  Except.ok ()

/-- The `recover` scan loop (`src/wal.rs` lines 71–93): read a 4-byte LE
size; stop on 0 or above the 1 MiB sanity bound; *advance past* the size,
then read the payload — a failed payload read stops the scan, a payload that
fails to deserialize is skipped and the scan continues. -/
def recoverLoop (st : List Nat) (offset : Nat) : List WalEntry × Nat :=
  if h4 : offset + 4 ≤ st.length then
    let size := fromLE ((st.drop offset).take 4)
    if h0 : size = 0 ∨ size > 1024 * 1024 then ([], offset)
    else
      if hp : offset + 4 + size ≤ st.length then
        let data := (st.drop (offset + 4)).take size
        let rest := recoverLoop st (offset + 4 + size)
        match decodeEntry data with
        | some e => (e :: rest.1, rest.2)
        | none => rest
      else ([], offset + 4)
  else ([], offset)
  termination_by st.length - offset
  decreasing_by omega

/-- `WriteAheadLog::recover`: scan the storage from offset 0; returns the
recovered entries and leaves `next_offset` at the final scan position.  The
in-memory entry list is untouched and nothing is truncated. -/
def WriteAheadLog.recover (w : WriteAheadLog) :
    Except String (List WalEntry) × WriteAheadLog :=
  match w.storage with
  | none => (Except.ok [], { w with next_offset := 0 })
  | some st =>
      let r := recoverLoop st 0
      (Except.ok r.1, { w with next_offset := r.2 })

/-- `WriteAheadLog::checkpoint`: truncate the storage to 0 and reset the
cursor — only when storage is present. -/
def WriteAheadLog.checkpoint (w : WriteAheadLog) : WriteAheadLog :=
  match w.storage with
  | some _ => { w with storage := some [], next_offset := 0 }
  | none => w

/-- `WriteAheadLog::clear_txn`: drop the transaction's in-memory entries;
checkpoint when none remain. -/
def clear_txn (w : WriteAheadLog) (txn_id : Nat) : WriteAheadLog :=
  let entries' := w.entries.filter (fun e => decide (e.txn_id ≠ txn_id))
  if entries'.isEmpty then WriteAheadLog.checkpoint { w with entries := entries' }
  else { w with entries := entries' }

/-! ## `TransactionManager` (`src/transaction.rs`) -/

/-- `TransactionManager`: the WAL and the transaction-id counter (locks are
irrelevant to the sequential semantics embedded here). -/
structure TransactionManager where
  wal : WriteAheadLog
  next_txn_id : Nat

/-- `TransactionManager::new()`: a fresh WAL — whose storage is `None` until
`set_wal_storage` is called — and counter 1. -/
def TransactionManager.new : TransactionManager :=
  { wal := WriteAheadLog.new, next_txn_id := 1 }

/-- Apply a transaction's recorded operations in order, stopping at the first
failure (`for op in txn.ops { op.apply()?; }`); returns the outcome and the
state reached so far. -/
def applyList (fs : FsState) : List TransactionOperation → Except String Unit × FsState
  | [] => (Except.ok (), fs)
  | op :: rest =>
      match op.apply fs with
      | Except.error e => (Except.error e, fs)
      | Except.ok fs' => applyList fs' rest

/-- `TransactionManager::commit` (`src/transaction.rs` lines 63–87): append
every op to the WAL, flush, apply the ops in order, then clear the
transaction from the WAL (checkpointing when it empties).  A failing apply
aborts with the earlier ops' effects already committed and the transaction
still in the WAL. -/
def commit (tm : TransactionManager) (fs : FsState) (txn_id : Nat)
    (ops : List TransactionOperation) :
    Except String Unit × TransactionManager × FsState :=
  let wal1 := ops.foldl (fun w op => appendCore w txn_id op) tm.wal
  match applyList fs ops with
  | (Except.error e, fs') => (Except.error e, { tm with wal := wal1 }, fs')
  | (Except.ok _, fs') =>
      (Except.ok (), { tm with wal := clear_txn wal1 txn_id }, fs')

/-- `TransactionManager::commit_into_wal_only`: append and flush without
applying (the repository's own crash-simulation helper). -/
def commit_into_wal_only (tm : TransactionManager) (txn_id : Nat)
    (ops : List TransactionOperation) : TransactionManager :=
  { tm with wal := ops.foldl (fun w op => appendCore w txn_id op) tm.wal }

/-- `TransactionManager::replay` (`src/transaction.rs` lines 89–104): recover
the WAL entries and apply each in order (`entry.operation.apply()?`); nothing
is cleared or truncated afterwards. -/
def replay (tm : TransactionManager) (fs : FsState) :
    Except String Unit × TransactionManager × FsState :=
  let r := tm.wal.recover
  match r.1 with
  | Except.error e => (Except.error e, { tm with wal := r.2 }, fs)
  | Except.ok entries =>
      match applyList fs (entries.map (fun e => e.operation)) with
      | (Except.error e, fs') => (Except.error e, { tm with wal := r.2 }, fs')
      | (Except.ok _, fs') => (Except.ok (), { tm with wal := r.2 }, fs')


/-! ## Concrete WAL/store artifacts for the recovery and replay scenarios -/

/-- A WAL frame as persisted by `append`: `[len: u32 LE][payload]`. -/
def mkFrame (p : List Nat) : List Nat := natLE 4 p.length ++ p

/-- A WAL whose backing storage holds the byte string `st`. -/
def walWith (st : List Nat) : WriteAheadLog :=
  { entries := [], storage := some st, next_offset := 0 }

/-- Concrete WAL entries used in the recovery scenarios. -/
def walEntryA : WalEntry := { txn_id := 1, operation := TransactionOperation.delete 1 "a" }

def walEntryB : WalEntry := { txn_id := 2, operation := TransactionOperation.delete 1 "b" }

/-- The two-op WAL of the replay scenario: make directory `d`, then delete it. -/
def e5a : WalEntry := { txn_id := 1, operation := TransactionOperation.mkdir 1 "d" 0 0 493 }

def e5b : WalEntry := { txn_id := 1, operation := TransactionOperation.delete 1 "d" }

/-- Its persisted frames. -/
def S5 : List Nat := mkFrame (encodeEntry e5a) ++ mkFrame (encodeEntry e5b)

/-- A manager whose WAL storage holds exactly those frames (as after
`commit_into_wal_only`, the repository's own crash-simulation path). -/
def tm5 : TransactionManager := { wal := walWith S5, next_txn_id := 2 }

/-- The root inode's `hard_links` value — observable through `dbfs_get_attr`. -/
def rootLinks (fs : FsState) : Nat :=
  valNum ((fs.db 1).bind (fun b => bucketGet b "hard_links")) 0

/-- Store states after one and two replays of the `S5` WAL. -/
def fs5a : FsState := (applyList fs0 [e5a.operation, e5b.operation]).2

def fs5b : FsState := (applyList fs5a [e5a.operation, e5b.operation]).2

/-- The WAL state every replay of `S5` leaves behind: storage untouched,
cursor at the end of the second frame. -/
def walS5r : WriteAheadLog :=
  { entries := [], storage := some S5,
    next_offset := 0 + 4 + (encodeEntry e5a).length + 4 + (encodeEntry e5b).length }

/-- The manager state every replay of `S5` leaves behind. -/
def tm5r : TransactionManager := { wal := walS5r, next_txn_id := 2 }

/-- The operation committed twice in the atomicity scenario. -/
def c2op : TransactionOperation := TransactionOperation.create 1 "a" 0 0 420 none

/-- The store after creating directory `d` under the root. -/
def c7fs : FsState :=
  match dbfs_create fs0 1 "d" DbfsFileType.dir 0 0 493 with
  | Except.ok r => r.1
  | Except.error _ => fs0

/-- The store state a successful directory `dbfs_create` produces, written
out explicitly (used to exhibit the created directory's bucket). -/
def createdDirState (fs : FsState) (parent : Nat) (name : String)
    (uid gid perm : Nat) (pb : Bucket) : FsState :=
  { db := (dbPut (dbPut fs.db fs.nextIno (mkInodeBucket (perm ||| 0o040000) uid gid))
      parent (bucketPut (bucketPut pb name (Val.num fs.nextIno)) "hard_links"
        (Val.num (valNum (bucketGet (bucketPut pb name (Val.num fs.nextIno))
          "hard_links") 2 + 1)))),
    nextIno := fs.nextIno + 1 }


/-! ## Basic facts about the device and buffer primitives -/

lemma length_readData (dev : Device) (pos n : Nat) : (readData dev pos n).length = n := by
  simp [readData]

lemma length_copyIntoBuf (buf : List Nat) (off : Nat) (repl : List Nat)
    (h : off + repl.length ≤ buf.length) :
    (copyIntoBuf buf off repl).length = buf.length := by
  simp only [copyIntoBuf, List.length_append, List.length_take, List.length_drop]
  omega

lemma copyIntoBuf_zero_full (buf data : List Nat) (h : buf.length = data.length) :
    copyIntoBuf buf 0 data = data := by
  simp [copyIntoBuf, ← h, List.drop_length]

lemma readData_writeAt (dev : Device) (p : Nat) (data : List Nat) :
    readData (writeAt dev p data) p data.length = data := by
  apply List.ext_getElem
  · simp [readData]
  · intro i h1 h2
    simp only [readData, List.getElem_map, List.getElem_range]
    rw [writeAt, if_pos ⟨Nat.le_add_right _ _, by omega⟩]
    simp only [Nat.add_sub_cancel_left]
    exact List.getD_eq_getElem data 0 h2

lemma readData_writeAt_disjoint (dev : Device) (q : Nat) (b : List Nat) (p L : Nat)
    (h : p + L ≤ q) :
    readData (writeAt dev q b) p L = readData dev p L := by
  apply List.ext_getElem
  · simp [readData]
  · intro i h1 h2
    simp only [readData, List.getElem_map, List.getElem_range]
    rw [writeAt, if_neg]
    simp only [readData, List.length_map, List.length_range] at h1
    omega

/-! ## Behaviour of the `read_file` extent loop -/

/-- Once `total_read` has reached `read_len`, the loop breaks immediately and
no further extent is consulted. -/
lemma readFileLoop_break (dev : Device) (offset read_len : Nat)
    (E : List Extent) (buf : List Nat) (t : Nat) (h : read_len ≤ t) :
    readFileLoop dev offset read_len E buf t = (buf, t) := by
  cases E with
  | nil => rfl
  | cons e rest => simp [readFileLoop, h]

/-- Processing one extent whose logical range starts exactly at `offset` and
has length `read_len = L > 0`: the whole buffer is overwritten with that
extent's log bytes and `total_read` becomes `L`. -/
lemma readFileLoop_cover (dev : Device) (offset L p c : Nat) (rest : List Extent)
    (buf : List Nat) (t : Nat) (hbuf : buf.length = L) (ht : t < L) :
    readFileLoop dev offset L
      ({ logical_off := offset, physical_ptr := p, len := L, crc := c } :: rest) buf t
      = (readData dev p L, L) := by
  have hL : 0 < L := Nat.pos_of_ne_zero (by omega)
  simp only [readFileLoop]
  rw [if_neg (by omega), if_pos (by constructor <;> omega)]
  simp only [Nat.max_self, Nat.min_self, Nat.sub_self, Nat.add_zero, Nat.zero_add,
    Nat.add_sub_cancel_left]
  rw [copyIntoBuf_zero_full _ _ (by rw [hbuf, length_readData])]
  have hmax : max t L = L := by omega
  rw [hmax]
  exact readFileLoop_break dev offset L rest _ L (le_refl L)

/-- Key lemma behind the (conditional) write–read round trip: if every earlier
extent that overlaps the requested window `[offset, offset+L)` stops strictly
short of its end, the loop reaches the final extent, which covers the whole
window, and the result is exactly that extent's log bytes. -/
lemma readFileLoop_last (dev : Device) (offset L p c : Nat) :
    ∀ (E : List Extent) (buf : List Nat) (t : Nat),
      buf.length = L → t < L →
      (∀ e ∈ E, e.logical_off < offset + L → offset < e.logical_off + e.len →
        e.logical_off + e.len < offset + L) →
      readFileLoop dev offset L
        (E ++ [{ logical_off := offset, physical_ptr := p, len := L, crc := c }]) buf t
        = (readData dev p L, L) := by
  intro E
  induction E with
  | nil =>
      intro buf t hbuf ht _
      simpa using readFileLoop_cover dev offset L p c [] buf t hbuf ht
  | cons e E' ih =>
      intro buf t hbuf ht hcond
      simp only [List.cons_append, readFileLoop]
      rw [if_neg (by omega)]
      by_cases hov : e.logical_off < offset + L ∧ e.logical_off + e.len > offset
      · rw [if_pos hov]
        have hee : e.logical_off + e.len < offset + L :=
          hcond e (List.mem_cons_self e E') hov.1 hov.2
        have hmin : min (e.logical_off + e.len) (offset + L) = e.logical_off + e.len :=
          Nat.min_eq_left (Nat.le_of_lt hee)
        rw [hmin]
        apply ih
        · rw [length_copyIntoBuf]
          · exact hbuf
          · rw [length_readData]
            omega
        · have : max e.logical_off offset - offset +
              (e.logical_off + e.len - max e.logical_off offset) < L := by omega
          omega
        · intro x hx h1 h2
          exact hcond x (List.mem_cons_of_mem e hx) h1 h2
      · rw [if_neg hov]
        exact ih buf t hbuf ht (fun x hx h1 h2 => hcond x (List.mem_cons_of_mem e hx) h1 h2)

/-- With `read_len = 0`, the loop breaks on its first iteration. -/
lemma readFileLoop_zero (dev : Device) (offset : Nat) (E : List Extent) (buf : List Nat) :
    readFileLoop dev offset 0 E buf 0 = (buf, 0) :=
  readFileLoop_break dev offset 0 E buf 0 (le_refl 0)

/-- The inode record after a successful `write_file_transactional`: the new
extent is appended and the size maxed with the window's end. -/
def metaAfter (meta : InodeMetadata) (offset : Nat) (data : List Nat) (p : Nat) :
    InodeMetadata :=
  { meta with
    extents := meta.extents ++
      [{ logical_off := offset, physical_ptr := p, len := data.length, crc := crc32 data }],
    size := max meta.size (offset + data.length) }

/-- Unfolding equation for a successful `write_file_transactional`. -/
lemma write_file_eq (s : EngState) (ino offset : Nat) (data : List Nat)
    (meta : InodeMetadata) (hmeta : s.inodes ino = some meta) :
    write_file_transactional s ino offset data =
      (Except.ok (),
       { dev := writeAt s.dev s.nextPos data, nextPos := s.nextPos + data.length,
         inodes := fun i => if i = ino then some (metaAfter meta offset data s.nextPos)
                            else s.inodes i },
       [Event.devWrite s.nextPos data, Event.kvCommit]) := by
  simp [write_file_transactional, hmeta, metaAfter]

/-- Unfolding equation for `read_file` on an existing inode. -/
lemma read_file_eq (s : EngState) (ino offset : Nat) (buf : List Nat)
    (meta : InodeMetadata) (hmeta : s.inodes ino = some meta) :
    read_file s ino offset buf =
      if offset ≥ meta.size then Except.ok (0, buf)
      else
        Except.ok
          ((readFileLoop s.dev offset (min buf.length (meta.size - offset)) meta.extents buf 0).2,
           (readFileLoop s.dev offset (min buf.length (meta.size - offset)) meta.extents buf 0).1) := by
  simp only [read_file, hmeta]

/-- Shared round-trip helper: a successful `write_file_transactional` followed
by `read_file` at the same inode and offset into a buffer of the payload's
length returns the payload — **provided** no pre-existing extent overlapping
the window extends to the window's end (otherwise the loop's early `break`
hides the new extent). -/
lemma write_then_read (s : EngState) (ino offset : Nat) (data buf : List Nat)
    (meta : InodeMetadata) (hmeta : s.inodes ino = some meta)
    (hcond : ∀ e ∈ meta.extents, e.logical_off < offset + data.length →
      offset < e.logical_off + e.len → e.logical_off + e.len < offset + data.length)
    (hbuf : buf.length = data.length) :
    (write_file_transactional s ino offset data).1 = Except.ok () ∧
    read_file (write_file_transactional s ino offset data).2.1 ino offset buf
      = Except.ok (data.length, data) := by
  rw [write_file_eq s ino offset data meta hmeta]
  refine ⟨rfl, ?_⟩
  rw [read_file_eq _ ino offset buf (metaAfter meta offset data s.nextPos) (by simp)]
  set L := data.length with hL
  have hsize : (metaAfter meta offset data s.nextPos).size = max meta.size (offset + L) := rfl
  have hext : (metaAfter meta offset data s.nextPos).extents =
      meta.extents ++
        [{ logical_off := offset, physical_ptr := s.nextPos, len := L, crc := crc32 data }] := rfl
  by_cases hsz : offset ≥ max meta.size (offset + L)
  · have h0 : L = 0 := by omega
    have hbuf0 : buf = [] := List.length_eq_zero.mp (by omega)
    have hdata0 : data = [] := List.length_eq_zero.mp (by omega)
    rw [hsize, if_pos hsz, hbuf0, hdata0, h0]
  · rw [hsize, if_neg hsz, hext]
    have hrl : min buf.length (max meta.size (offset + L) - offset) = L := by omega
    rw [hrl]
    by_cases hL0 : L = 0
    · have hbuf0 : buf = [] := List.length_eq_zero.mp (by omega)
      have hdata0 : data = [] := List.length_eq_zero.mp (by omega)
      rw [hL0, readFileLoop_zero, hbuf0, hdata0]
    · rw [readFileLoop_last _ _ _ _ _ _ _ _ hbuf (by omega) hcond,
        readData_writeAt]

/-! ## Claims C1, C3, C4, C8, C9 -/

/-- C1, counterexample.  The write–read round trip fails as soon as an earlier
extent already covers the requested window: after `write(2, 0, [7,7])` succeeds
and then `write(2, 0, [9,9])` succeeds, `read(2, 0)` into a 2-byte buffer
returns the **first** payload `[7,7]`, not the bytes `[9,9]` just written —
`read_file`'s loop breaks once `total_read` reaches `read_len`, before it
reaches the newer extent. -/
theorem c1_roundtrip_counterexample :
    (write_file_transactional s0 2 0 [7, 7]).1 = Except.ok () ∧
    (write_file_transactional s1c 2 0 [9, 9]).1 = Except.ok () ∧
    read_file s2c 2 0 [0, 0] = Except.ok (2, [7, 7]) ∧
    ([7, 7] : List Nat) ≠ [9, 9] :=
  ⟨rfl, rfl, rfl, by decide⟩

/-- C1, amended.  The round trip does hold whenever no pre-existing extent of
the inode both overlaps the requested window `[offset, offset + len(bytes))`
and extends to the window's end or beyond — in particular for any write to an
inode with no extents yet: then `read_file` at the same inode and offset into
a buffer of length `len(bytes)` returns `len(bytes)` and exactly `bytes`. -/
theorem c1_roundtrip_amended (s : EngState) (ino offset : Nat) (data buf : List Nat)
    (meta : InodeMetadata) (hmeta : s.inodes ino = some meta)
    (hcond : ∀ e ∈ meta.extents, e.logical_off < offset + data.length →
      offset < e.logical_off + e.len → e.logical_off + e.len < offset + data.length)
    (hbuf : buf.length = data.length) :
    (write_file_transactional s ino offset data).1 = Except.ok () ∧
    read_file (write_file_transactional s ino offset data).2.1 ino offset buf
      = Except.ok (data.length, data) :=
  write_then_read s ino offset data buf meta hmeta hcond hbuf

/-- C1, witness for the amended theorem: a first write to the fresh inode 2. -/
theorem c1_roundtrip_amended_witness :
    (write_file_transactional s0 2 0 [3, 4]).1 = Except.ok () ∧
    read_file (write_file_transactional s0 2 0 [3, 4]).2.1 2 0 [0, 0]
      = Except.ok (2, [3, 4]) :=
  c1_roundtrip_amended s0 2 0 [3, 4] [0, 0] freshMeta rfl (by simp [freshMeta]) rfl

/-- C3, counterexample.  Newest-wins fails on both read paths; here the exact
P3 scenario: `write(2, 0, A)` then `write(2, 0, B)` with `len(A) = len(B) = 3`
both succeed, yet `read_file` at offset 0 returns `A = [1,2,3]`, not
`B = [4,5,6]` — the early `break` stops the loop before the newer extent. -/
theorem c3_newest_wins_counterexample :
    (write_file_transactional s0 2 0 [1, 2, 3]).1 = Except.ok () ∧
    (write_file_transactional (write_file_transactional s0 2 0 [1, 2, 3]).2.1
        2 0 [4, 5, 6]).1 = Except.ok () ∧
    read_file (write_file_transactional (write_file_transactional s0 2 0 [1, 2, 3]).2.1
        2 0 [4, 5, 6]).2.1 2 0 [0, 0, 0] = Except.ok (3, [1, 2, 3]) ∧
    ([1, 2, 3] : List Nat) ≠ [4, 5, 6] :=
  ⟨rfl, rfl, rfl, by decide⟩

/-- C3, amended.  On overlap the **earliest** extent wins, not the latest:
after two successful writes of equal-length payloads `A` then `B` at the same
offset of an inode that had no extents, `read_file` at that offset returns
`A`.  (`read_file` walks the vector in order and breaks once `total_read`
reaches `read_len`, so the first covering extent shadows all later ones;
`read_from_log` likewise takes the first extent containing each position.) -/
theorem c3_earliest_wins_amended (s : EngState) (ino offset : Nat)
    (A B buf : List Nat) (meta : InodeMetadata)
    (hmeta : s.inodes ino = some meta) (hext : meta.extents = [])
    (hAB : A.length = B.length) (hbuf : buf.length = A.length)
    (hpos : 0 < A.length) :
    read_file
      (write_file_transactional (write_file_transactional s ino offset A).2.1
        ino offset B).2.1 ino offset buf
      = Except.ok (A.length, A) := by
  rw [write_file_eq s ino offset A meta hmeta]
  dsimp only
  rw [write_file_eq _ ino offset B (metaAfter meta offset A s.nextPos) (by simp)]
  dsimp only
  rw [read_file_eq _ ino offset buf
    (metaAfter (metaAfter meta offset A s.nextPos) offset B (s.nextPos + A.length)) (by simp)]
  set L := A.length with hL
  have hsize : (metaAfter (metaAfter meta offset A s.nextPos) offset B
      (s.nextPos + A.length)).size = max (max meta.size (offset + L)) (offset + B.length) := rfl
  have hext2 : (metaAfter (metaAfter meta offset A s.nextPos) offset B
      (s.nextPos + A.length)).extents =
      [{ logical_off := offset, physical_ptr := s.nextPos, len := L, crc := crc32 A },
       { logical_off := offset, physical_ptr := s.nextPos + L, len := B.length,
         crc := crc32 B }] := by
    simp [metaAfter, hext]
  rw [hsize, hext2, if_neg (by omega)]
  have hrl : min buf.length (max (max meta.size (offset + L)) (offset + B.length) - offset)
      = L := by omega
  rw [hrl]
  rw [readFileLoop_cover _ offset L s.nextPos (crc32 A) _ buf 0 hbuf hpos]
  rw [readData_writeAt_disjoint _ _ _ _ _ (by omega)]
  have : readData (writeAt s.dev s.nextPos A) s.nextPos L = A := readData_writeAt _ _ _
  rw [this]

/-- C3, witness for the amended theorem: `A = [1,2]`, `B = [3,4]` at offset 5. -/
theorem c3_earliest_wins_amended_witness :
    read_file
      (write_file_transactional (write_file_transactional s0 2 5 [1, 2]).2.1
        2 5 [3, 4]).2.1 2 5 [0, 0]
      = Except.ok (2, [1, 2]) :=
  c3_earliest_wins_amended s0 2 5 [1, 2] [3, 4] [0, 0] freshMeta rfl rfl rfl rfl
    (by decide)

/-- C4, counterexample.  A successful `write_file_transactional` performs the
device write of the payload and the KV commit, but no `BlockDevice` flush is
invoked between them — its event trace contains a commit and no flush at all
(the `BlockDevice` trait does not even declare a flush method). -/
theorem c4_flush_counterexample :
    (write_file_transactional s0 2 0 [1, 2]).1 = Except.ok () ∧
    Event.kvCommit ∈ (write_file_transactional s0 2 0 [1, 2]).2.2 ∧
    Event.devFlush ∉ (write_file_transactional s0 2 0 [1, 2]).2.2 :=
  ⟨rfl, by decide, by decide⟩

/-- C4, amended.  The protocol order that does hold: the payload's device
write via `append_data` happens first and the KV commit (on success) second,
with no flush anywhere in between — for every state and argument the event
trace is `[devWrite, kvCommit]` on success or `[devWrite]` on failure, and it
never contains a flush. -/
theorem c4_write_before_commit_no_flush (s : EngState) (ino offset : Nat)
    (data : List Nat) :
    ((write_file_transactional s ino offset data).2.2
        = [Event.devWrite s.nextPos data] ∨
     (write_file_transactional s ino offset data).2.2
        = [Event.devWrite s.nextPos data, Event.kvCommit]) ∧
    Event.devFlush ∉ (write_file_transactional s ino offset data).2.2 := by
  unfold write_file_transactional
  cases h : s.inodes ino <;> simp [h]

/-- C8, code divergence at the failing input.  Inode 2 has size 6 with a
single extent covering `[4, 6)` (bytes 11, 12) and a hole at `[0, 4)`.
`read_from_log` at offset 0 stops at the hole: it returns 0 bytes and leaves
the caller's buffer (pre-filled with 85s) untouched — no zero fill, no full
count.  `read_file` on the same state returns the full count 6 but leaves the
hole bytes as the caller's 85s instead of zeros. -/
theorem c8_holes_divergence :
    read_from_log holeDev holeMeta 0 [85, 85, 85, 85, 85, 85]
      = ([85, 85, 85, 85, 85, 85], 0) ∧
    read_file holeState 2 0 [85, 85, 85, 85, 85, 85]
      = Except.ok (6, [85, 85, 85, 85, 11, 12]) := by
  constructor
  · rw [read_from_log]
    norm_num [holeMeta]
    rw [readFromLogLoop.eq_def]
    norm_num [holeMeta, List.find?_cons]
  · rfl

/-- C9: for the extent recorded by a successful `write_file_transactional`,
the stored `crc` equals `crc32` (the reflected-0xEDB88320, seed `0xFFFFFFFF`,
final-XOR `0xFFFFFFFF` algorithm of `src/log_manager.rs`) of exactly the
bytes found in the log at `[physical_ptr, physical_ptr + len)` afterwards. -/
theorem c9_extent_crc (s : EngState) (ino offset : Nat) (data : List Nat)
    (meta : InodeMetadata) (hmeta : s.inodes ino = some meta) :
    (write_file_transactional s ino offset data).1 = Except.ok () ∧
    ∀ m', (write_file_transactional s ino offset data).2.1.inodes ino = some m' →
      ∀ e, m'.extents.getLast? = some e →
        e.crc = crc32 (readData (write_file_transactional s ino offset data).2.1.dev
          e.physical_ptr e.len) := by
  rw [write_file_eq s ino offset data meta hmeta]
  refine ⟨rfl, ?_⟩
  dsimp only
  intro m' hm' e he
  have hm2 : metaAfter meta offset data s.nextPos = m' := by simpa using hm'
  subst hm2
  simp only [metaAfter, List.getLast?_concat, Option.some.injEq] at he
  subst he
  dsimp only
  rw [readData_writeAt]

/-- C9, witness: a concrete write of `[1, 2, 3]` at offset 0 to inode 2. -/
theorem c9_extent_crc_witness :
    (write_file_transactional s0 2 0 [1, 2, 3]).1 = Except.ok () ∧
    ∀ m', (write_file_transactional s0 2 0 [1, 2, 3]).2.1.inodes 2 = some m' →
      ∀ e, m'.extents.getLast? = some e →
        e.crc = crc32 (readData (write_file_transactional s0 2 0 [1, 2, 3]).2.1.dev
          e.physical_ptr e.len) :=
  c9_extent_crc s0 2 0 [1, 2, 3] freshMeta rfl

/-! ## Codec and recovery-scan lemmas -/

lemma length_natLE (k n : Nat) : (natLE k n).length = k := by simp [natLE]

lemma length_mkFrame (p : List Nat) : (mkFrame p).length = 4 + p.length := by
  simp [mkFrame, length_natLE]

lemma fromLE_natLE4 (n : Nat) (h : n < 4294967296) : fromLE (natLE 4 n) = n := by
  have h4 : natLE 4 n = [n % 256, n / 256 % 256, n / 65536 % 256, n / 16777216 % 256] := by
    simp [natLE, List.range_succ]
  rw [h4]
  simp only [fromLE, List.foldr_cons, List.foldr_nil]
  omega

/-- Scan termination: fewer than four bytes remain. -/
lemma recoverLoop_end (st : List Nat) (offset : Nat) (h : st.length < offset + 4) :
    recoverLoop st offset = ([], offset) := by
  rw [recoverLoop.eq_def, dif_neg (by omega)]

/-- One scan step over a complete frame: the size reads back as the payload
length, the payload reads fully, and the scan continues past the frame —
prepending the decoded entry exactly when the payload deserializes. -/
lemma recoverLoop_frame (st pre p rest : List Nat) (offset : Nat)
    (hst : st = pre ++ (mkFrame p ++ rest)) (hoff : offset = pre.length)
    (h1 : 0 < p.length) (h2 : p.length ≤ 1024 * 1024) :
    recoverLoop st offset =
      match decodeEntry p with
      | some e => (e :: (recoverLoop st (offset + 4 + p.length)).1,
                   (recoverLoop st (offset + 4 + p.length)).2)
      | none => recoverLoop st (offset + 4 + p.length) := by
  subst hst hoff
  have hlen : (pre ++ (mkFrame p ++ rest)).length
      = pre.length + (4 + p.length) + rest.length := by
    simp [mkFrame, length_natLE]
    omega
  have hdrop1 : (pre ++ (mkFrame p ++ rest)).drop pre.length = mkFrame p ++ rest :=
    List.drop_left pre _
  have htake1 : ((pre ++ (mkFrame p ++ rest)).drop pre.length).take 4 = natLE 4 p.length := by
    rw [hdrop1, mkFrame, List.append_assoc]
    rw [List.take_left' (length_natLE 4 p.length)]
  have hsize : fromLE (((pre ++ (mkFrame p ++ rest)).drop pre.length).take 4) = p.length := by
    rw [htake1, fromLE_natLE4 _ (by omega)]
  have hdata : ((pre ++ (mkFrame p ++ rest)).drop (pre.length + 4)).take p.length = p := by
    have hassoc : pre ++ (mkFrame p ++ rest) = (pre ++ natLE 4 p.length) ++ (p ++ rest) := by
      simp [mkFrame, List.append_assoc]
    rw [hassoc, List.drop_left' (by simp [length_natLE]), List.take_left' rfl]
  rw [recoverLoop.eq_def, dif_pos (by rw [hlen]; omega)]
  simp only [hsize]
  rw [dif_neg (by omega), dif_pos (by rw [hlen]; omega)]
  simp only [hdata]

/-- A partially-written last frame (size present, payload short) stops the
scan right after its size field and contributes nothing. -/
lemma recoverLoop_short (st pre : List Nat) (n : Nat) (tailBytes : List Nat) (offset : Nat)
    (hst : st = pre ++ (natLE 4 n ++ tailBytes)) (hoff : offset = pre.length)
    (h1 : 0 < n) (h2 : n ≤ 1024 * 1024) (h3 : tailBytes.length < n) :
    recoverLoop st offset = ([], offset + 4) := by
  subst hst hoff
  have hlen : (pre ++ (natLE 4 n ++ tailBytes)).length
      = pre.length + 4 + tailBytes.length := by
    simp [length_natLE]
    omega
  have htake1 : ((pre ++ (natLE 4 n ++ tailBytes)).drop pre.length).take 4 = natLE 4 n := by
    rw [List.drop_left pre _]
    rw [List.take_left' (length_natLE 4 n)]
  have hsize : fromLE (((pre ++ (natLE 4 n ++ tailBytes)).drop pre.length).take 4) = n := by
    rw [htake1, fromLE_natLE4 _ (by omega)]
  rw [recoverLoop.eq_def, dif_pos (by rw [hlen]; omega)]
  simp only [hsize]
  rw [dif_neg (by omega), dif_neg (by rw [hlen]; omega)]

/-- Scanning the two complete, well-formed frames of `S5`. -/
lemma recoverLoop_S5 : recoverLoop S5 0 =
    ([e5a, e5b], 0 + 4 + (encodeEntry e5a).length + 4 + (encodeEntry e5b).length) := by
  have e1 := recoverLoop_frame S5 [] (encodeEntry e5a) (mkFrame (encodeEntry e5b)) 0
    (by simp [S5]) (by simp) (by decide) (by decide)
  rw [show decodeEntry (encodeEntry e5a) = some e5a from by decide] at e1
  have e2 := recoverLoop_frame S5 (mkFrame (encodeEntry e5a)) (encodeEntry e5b) []
    (0 + 4 + (encodeEntry e5a).length)
    (by simp [S5]) (by simp [length_mkFrame]; try omega) (by decide) (by decide)
  rw [show decodeEntry (encodeEntry e5b) = some e5b from by decide] at e2
  have e3 := recoverLoop_end S5
    (0 + 4 + (encodeEntry e5a).length + 4 + (encodeEntry e5b).length)
    (by simp [S5, length_mkFrame]; try omega)
  rw [e1, e2, e3]

lemma replay_S5_once : replay tm5 fs0 = (Except.ok (), tm5r, fs5a) := by
  have happ : applyList fs0 [e5a.operation, e5b.operation] = (Except.ok (), fs5a) :=
    Prod.ext (by decide) rfl
  simp only [replay, WriteAheadLog.recover, tm5, tm5r, walS5r, walWith, recoverLoop_S5,
    List.map_cons, List.map_nil, happ]

lemma replay_S5_twice : replay tm5r fs5a = (Except.ok (), tm5r, fs5b) := by
  have happ : applyList fs5a [e5a.operation, e5b.operation] = (Except.ok (), fs5b) :=
    Prod.ext (by decide) rfl
  simp only [replay, WriteAheadLog.recover, tm5r, walS5r, walWith, recoverLoop_S5,
    List.map_cons, List.map_nil, happ]

lemma appendCore_entries (w : WriteAheadLog) (t : Nat) (op : TransactionOperation) :
    (appendCore w t op).entries = w.entries ++ [{ txn_id := t, operation := op }] := by
  rcases w with ⟨en, st, off⟩
  cases st <;> rfl

lemma foldl_appendCore_entries (ops : List TransactionOperation) (t : Nat) :
    ∀ w : WriteAheadLog,
      (ops.foldl (fun w op => appendCore w t op) w).entries
        = w.entries ++ ops.map (fun op => { txn_id := t, operation := op }) := by
  induction ops with
  | nil => intro w; simp
  | cons o rest ih =>
      intro w
      simp [List.foldl_cons, ih, appendCore_entries, List.append_assoc]

/-! ## Claims C2, C5, C6, C7, C10 -/

/-- C2, counterexample.  A mutating operation can return an error **and**
leave a durable on-disk change: committing the transaction
`[create "a", create "a"]` applies the first create (the root gains the
entry `a` → inode 2), then the second fails with EExist, and
`TransactionManager::commit` returns that error — the store keeps `a`. -/
theorem c2_atomicity_counterexample :
    (commit TransactionManager.new fs0 1 [c2op, c2op]).1
      = Except.error ("Create error: " ++ errMsg FsErr.eexist) ∧
    ((fs0.db 1).bind (fun b => bucketGet b "a")) = none ∧
    (((commit TransactionManager.new fs0 1 [c2op, c2op]).2.2.db 1).bind
      (fun b => bucketGet b "a")) = some (Val.num 2) :=
  ⟨by decide, by decide, by decide⟩

/-- C2, amended.  What does hold: the single-commit write path is atomic —
on error `write_file_transactional` leaves the inode index unchanged (only
unreferenced log bytes were appended) — while a WAL-backed `commit` whose op
sequence fails midway returns an error with the already-applied prefix in
place, and the failed transaction's entries are retained in the WAL (not
cleared) so that recovery can finish the job. -/
theorem c2_atomicity_amended :
    (∀ (s : EngState) (ino offset : Nat) (data : List Nat),
      (write_file_transactional s ino offset data).1 ≠ Except.ok () →
      (write_file_transactional s ino offset data).2.1.inodes = s.inodes) ∧
    (∀ (tm : TransactionManager) (fs : FsState) (txn_id : Nat)
       (ops : List TransactionOperation) (e : String),
      (commit tm fs txn_id ops).1 = Except.error e → ops ≠ [] →
      ∃ en ∈ (commit tm fs txn_id ops).2.1.wal.entries, en.txn_id = txn_id) := by
  constructor
  · intro s ino offset data hne
    simp only [write_file_transactional] at hne ⊢
    rcases hm : s.inodes ino with _ | meta
    · simp [hm]
    · simp [hm] at hne
  · intro tm fs txn_id ops e herr hne
    simp only [commit] at herr ⊢
    rcases happ : applyList fs ops with ⟨a | u, fs'⟩
    · simp only [happ]
      rcases ops with _ | ⟨o, rest⟩
      · exact absurd rfl hne
      · refine ⟨{ txn_id := txn_id, operation := o }, ?_, rfl⟩
        rw [foldl_appendCore_entries]
        simp
    · rw [happ] at herr
      simp at herr

/-- C2, witness: a failing write to a missing inode leaves the index
untouched, and the failing double-create commit keeps its transaction in
the WAL. -/
theorem c2_atomicity_amended_witness :
    (write_file_transactional s0 5 0 [1]).2.1.inodes = s0.inodes ∧
    ∃ en ∈ (commit TransactionManager.new fs0 1 [c2op, c2op]).2.1.wal.entries,
      en.txn_id = 1 :=
  ⟨c2_atomicity_amended.1 s0 5 0 [1] (by decide),
   c2_atomicity_amended.2 TransactionManager.new fs0 1 [c2op, c2op]
     ("Create error: " ++ errMsg FsErr.eexist) (by decide) (by decide)⟩

/-- C5, counterexample.  Replaying the WAL twice does not equal replaying it
once: with the recovered ops `[Mkdir 1 "d", Delete 1 "d"]` both replays
succeed, but `dbfs_create` bumps the root's `hard_links` on every Mkdir and
`dbfs_unlink` never restores it, so the root's link count — observable via
`get_attr` — is 3 after one replay and 4 after two. -/
theorem c5_replay_counterexample :
    (replay tm5 fs0).1 = Except.ok () ∧
    rootLinks (replay tm5 fs0).2.2 = 3 ∧
    (replay (replay tm5 fs0).2.1 (replay tm5 fs0).2.2).1 = Except.ok () ∧
    rootLinks (replay (replay tm5 fs0).2.1 (replay tm5 fs0).2.2).2.2 = 4 := by
  rw [replay_S5_once]
  refine ⟨rfl, by decide, ?_, ?_⟩
  · rw [show (Except.ok (), tm5r, fs5a).2.1 = tm5r from rfl,
      show ((Except.ok () : Except String Unit), tm5r, fs5a).2.2 = fs5a from rfl,
      replay_S5_twice]
  · rw [show (Except.ok (), tm5r, fs5a).2.1 = tm5r from rfl,
      show ((Except.ok () : Except String Unit), tm5r, fs5a).2.2 = fs5a from rfl,
      replay_S5_twice]
    decide

/-- C5, amended.  `replay` never truncates or clears the WAL storage, so a
second replay re-applies every recovered op; re-applying is harmless only
for an op rendered inapplicable by its own earlier application, which fails
without touching the store: a Create whose name already exists, a Delete of
a missing name, a Rename of a missing old name.  (Ops that are applicable
again — e.g. a Mkdir whose directory was deleted later in the WAL — mutate
the store again, which is the counterexample.) -/
theorem c5_replay_amended :
    (∀ (tm : TransactionManager) (fs : FsState),
      (replay tm fs).2.1.wal.storage = tm.wal.storage) ∧
    (∀ (fs : FsState) (p : Nat) (name : String) (uid gid perm : Nat)
       (dev : Option Nat) (pb : Bucket),
      fs.db p = some pb → (bucketGet pb name).isSome →
      (TransactionOperation.create p name uid gid perm dev).apply fs
        = Except.error ("Create error: " ++ errMsg FsErr.eexist)) ∧
    (∀ (fs : FsState) (p : Nat) (name : String) (pb : Bucket),
      fs.db p = some pb → bucketGet pb name = none →
      (TransactionOperation.delete p name).apply fs
        = Except.error ("Delete error: " ++ errMsg FsErr.noEntry)) ∧
    (∀ (fs : FsState) (op_ : Nat) (on_ : String) (np : Nat) (nn : String) (ob : Bucket),
      fs.db op_ = some ob → bucketGet ob on_ = none →
      (TransactionOperation.rename op_ on_ np nn).apply fs
        = Except.error ("Rename error: " ++ errMsg FsErr.noEntry)) := by
  refine ⟨?_, ?_, ?_, ?_⟩
  · intro tm fs
    simp only [replay]
    rcases hst : tm.wal.storage with _ | st <;>
      simp only [WriteAheadLog.recover, hst] <;>
      [skip; skip] <;>
      · generalize applyList fs _ = pr
        rcases pr with ⟨a | u, fs'⟩ <;> simp [hst]
  · intro fs p name uid gid perm dev pb hdb hname
    simp only [TransactionOperation.apply, dbfs_create, hdb, hname, if_pos]
  · intro fs p name pb hdb hname
    simp only [TransactionOperation.apply, dbfs_unlink, hdb, hname]
  · intro fs op_ on_ np nn ob hdb hname
    simp only [TransactionOperation.apply, dbfs_rename, hdb, hname]

/-- C5, witness: replay of `tm5` keeps its storage; re-creating the existing
root key `mode`, deleting the missing `zz`, renaming the missing `zz` all
fail as stated. -/
theorem c5_replay_amended_witness :
    (replay tm5 fs0).2.1.wal.storage = tm5.wal.storage ∧
    (TransactionOperation.create 1 "mode" 0 0 420 none).apply fs0
      = Except.error ("Create error: " ++ errMsg FsErr.eexist) ∧
    (TransactionOperation.delete 1 "zz").apply fs0
      = Except.error ("Delete error: " ++ errMsg FsErr.noEntry) ∧
    (TransactionOperation.rename 1 "zz" 1 "yy").apply fs0
      = Except.error ("Rename error: " ++ errMsg FsErr.noEntry) :=
  ⟨c5_replay_amended.1 tm5 fs0,
   c5_replay_amended.2.1 fs0 1 "mode" 0 0 420 none rootBucket rfl (by decide),
   c5_replay_amended.2.2.1 fs0 1 "zz" rootBucket rfl (by decide),
   c5_replay_amended.2.2.2 fs0 1 "zz" 1 "yy" rootBucket rfl (by decide)⟩

/-- C6, counterexample.  A frame whose payload fails to deserialize does
**not** stop recovery: with storage holding frame(A), frame(junk `[9]`),
frame(B) — where `decodeEntry [9] = none` — recovery returns `[A, B]`:
it skips the bad frame and still recovers the entry after it. -/
theorem c6_recovery_counterexample :
    decodeEntry [9] = none ∧
    (WriteAheadLog.recover (walWith (mkFrame (encodeEntry walEntryA) ++
        (mkFrame [9] ++ mkFrame (encodeEntry walEntryB))))).1
      = Except.ok [walEntryA, walEntryB] := by
  refine ⟨by decide, ?_⟩
  set pA := encodeEntry walEntryA with hpA
  set pB := encodeEntry walEntryB with hpB
  set S : List Nat := mkFrame pA ++ (mkFrame [9] ++ mkFrame pB) with hS
  have e1 := recoverLoop_frame S [] pA (mkFrame [9] ++ mkFrame pB) 0
    (by simp [hS]) (by simp) (by decide) (by decide)
  rw [show decodeEntry pA = some walEntryA from by decide] at e1
  have e2 := recoverLoop_frame S (mkFrame pA) [9] (mkFrame pB) (0 + 4 + pA.length)
    (by simp [hS]) (by simp [length_mkFrame]; try omega) (by decide) (by decide)
  rw [show decodeEntry [9] = none from by decide] at e2
  have e3 := recoverLoop_frame S (mkFrame pA ++ mkFrame [9]) pB []
    (0 + 4 + pA.length + 4 + ([9] : List Nat).length)
    (by simp [hS, List.append_assoc]) (by simp [length_mkFrame]; try omega)
    (by decide) (by decide)
  rw [show decodeEntry pB = some walEntryB from by decide] at e3
  have e4 := recoverLoop_end S
    (0 + 4 + pA.length + 4 + ([9] : List Nat).length + 4 + pB.length)
    (by simp [hS, length_mkFrame]; try omega)
  simp only [WriteAheadLog.recover, walWith]
  rw [e1, e2, e3, e4]

/-- C6, amended.  Recovery stops at a size of 0, a size above the 1 MiB
bound, or a failed read — in particular a partially-written last frame
(size present, payload short) ends the scan and contributes no entry.  But a
complete frame whose payload merely fails to deserialize is *skipped*, and
scanning continues: later valid frames are still recovered. -/
theorem c6_recovery_amended (g tailBytes : List Nat) (n : Nat)
    (hg : decodeEntry g = none) (hg1 : 0 < g.length) (hg2 : g.length ≤ 1024 * 1024)
    (hn1 : 0 < n) (hn2 : n ≤ 1024 * 1024) (ht : tailBytes.length < n) :
    (WriteAheadLog.recover (walWith (mkFrame (encodeEntry walEntryA) ++
        (mkFrame g ++ mkFrame (encodeEntry walEntryB))))).1
      = Except.ok [walEntryA, walEntryB] ∧
    (WriteAheadLog.recover (walWith (mkFrame (encodeEntry walEntryA) ++
        (natLE 4 n ++ tailBytes)))).1
      = Except.ok [walEntryA] := by
  constructor
  · set pA := encodeEntry walEntryA with hpA
    set pB := encodeEntry walEntryB with hpB
    set S : List Nat := mkFrame pA ++ (mkFrame g ++ mkFrame pB) with hS
    have e1 := recoverLoop_frame S [] pA (mkFrame g ++ mkFrame pB) 0
      (by simp [hS]) (by simp) (by decide) (by decide)
    rw [show decodeEntry pA = some walEntryA from by decide] at e1
    have e2 := recoverLoop_frame S (mkFrame pA) g (mkFrame pB) (0 + 4 + pA.length)
      (by simp [hS]) (by simp [length_mkFrame]; try omega) hg1 hg2
    rw [hg] at e2
    have e3 := recoverLoop_frame S (mkFrame pA ++ mkFrame g) pB []
      (0 + 4 + pA.length + 4 + g.length)
      (by simp [hS, List.append_assoc]) (by simp [length_mkFrame]; try omega)
      (by decide) (by decide)
    rw [show decodeEntry pB = some walEntryB from by decide] at e3
    have e4 := recoverLoop_end S (0 + 4 + pA.length + 4 + g.length + 4 + pB.length)
      (by simp [hS, length_mkFrame]; try omega)
    simp only [WriteAheadLog.recover, walWith]
    rw [e1, e2, e3, e4]
  · have e1 := recoverLoop_frame
      (mkFrame (encodeEntry walEntryA) ++ (natLE 4 n ++ tailBytes)) []
      (encodeEntry walEntryA) (natLE 4 n ++ tailBytes) 0
      (by simp) (by simp) (by decide) (by decide)
    rw [show decodeEntry (encodeEntry walEntryA) = some walEntryA from by decide] at e1
    have e2 := recoverLoop_short
      (mkFrame (encodeEntry walEntryA) ++ (natLE 4 n ++ tailBytes))
      (mkFrame (encodeEntry walEntryA)) n tailBytes
      (0 + 4 + (encodeEntry walEntryA).length)
      rfl (by simp [length_mkFrame]; try omega) hn1 hn2 ht
    simp only [WriteAheadLog.recover, walWith]
    rw [e1, e2]

/-- C6, witness: junk payload `[9]`, and a truncated last frame announcing 3
bytes but holding only 2. -/
theorem c6_recovery_amended_witness :
    (WriteAheadLog.recover (walWith (mkFrame (encodeEntry walEntryA) ++
        (mkFrame [9] ++ mkFrame (encodeEntry walEntryB))))).1
      = Except.ok [walEntryA, walEntryB] ∧
    (WriteAheadLog.recover (walWith (mkFrame (encodeEntry walEntryA) ++
        (natLE 4 3 ++ [1, 2])))).1
      = Except.ok [walEntryA] :=
  c6_recovery_amended [9] [1, 2] 3 (by decide) (by decide) (by decide)
    (by decide) (by decide) (by decide)

/-- C7, counterexample.  Directories are **not** created with `.` and `..`:
creating directory `d` under the root yields a bucket (inode 2) holding only
the eight metadata keys — looking up `.` or `..` in it gives nothing — and
the root bucket written at format time has no dot entries either. -/
theorem c7_rmdir_counterexample :
    dbfs_create fs0 1 "d" DbfsFileType.dir 0 0 493 = Except.ok (c7fs, 2) ∧
    (c7fs.db 2).isSome = true ∧
    ((c7fs.db 2).bind (fun b => bucketGet b ".")) = none ∧
    ((c7fs.db 2).bind (fun b => bucketGet b "..")) = none ∧
    bucketGet rootBucket "." = none ∧
    bucketGet rootBucket ".." = none := by
  refine ⟨rfl, by decide, by decide, by decide, by decide, by decide⟩

/-- C7, amended.  What does hold: a freshly created directory's bucket
contains no `.`/`..` entries at all, and `dbfs_rmdir` returns NotEmpty iff
the directory's bucket holds some key outside the eight metadata prefixes
(`mode`, `size`, `uid`, `gid`, `atime`, `mtime`, `ctime`, `hard_links`) —
were dot entries present they would count as children, not be exempt. -/
theorem c7_rmdir_amended :
    (∀ (fs : FsState) (parent : Nat) (name : String) (uid gid perm : Nat)
       (pb : Bucket),
      fs.db parent = some pb → bucketGet pb name = none → fs.db fs.nextIno = none →
      ∃ fs', dbfs_create fs parent name DbfsFileType.dir uid gid perm
          = Except.ok (fs', fs.nextIno) ∧
        ∀ b, fs'.db fs.nextIno = some b →
          bucketGet b "." = none ∧ bucketGet b ".." = none) ∧
    (∀ (fs : FsState) (parent ino : Nat) (name : String) (pb dirb : Bucket),
      fs.db parent = some pb → bucketGet pb name = some (Val.num ino) →
      fs.db ino = some dirb →
      (dbfs_rmdir fs parent name = Except.error FsErr.notEmpty ↔
        ∃ kv ∈ dirb, isMetaKey kv.1 = false)) := by
  constructor
  · intro fs parent name uid gid perm pb hdb hname hfresh
    have hne : parent ≠ fs.nextIno := by
      intro hcontra
      rw [hcontra, hfresh] at hdb
      exact Option.noConfusion hdb
    refine ⟨createdDirState fs parent name uid gid perm pb, ?_, ?_⟩
    · simp [dbfs_create, createdDirState, hdb, hname, hfresh]
    · intro b hb
      simp only [createdDirState, dbPut] at hb
      rw [if_neg (Ne.symm hne)] at hb
      simp at hb
      subst hb
      constructor <;> simp [mkInodeBucket, bucketGet, List.find?]
  · intro fs parent ino name pb dirb hdb hname hino
    simp only [dbfs_rmdir, hdb, hname, valNum, hino]
    by_cases hall : dirb.all (fun kv => isMetaKey kv.1) = true
    · rw [if_neg (by simp [hall])]
      constructor
      · intro hcontra
        exact absurd hcontra (by simp)
      · intro hex
        rcases hex with ⟨kv, hmem, hfalse⟩
        rw [List.all_eq_true] at hall
        have := hall kv hmem
        rw [hfalse] at this
        exact Bool.noConfusion this
    · rw [if_pos (by simp [hall])]
      constructor
      · intro _
        simp only [List.all_eq_true, not_forall] at hall
        obtain ⟨kv, hmem, hp⟩ := hall
        exact ⟨kv, hmem, by simpa using hp⟩
      · intro _
        rfl

/-- C7, witness: create `d` under the root (dot-free bucket), and the rmdir
guard evaluated on the created, metadata-only directory — NotEmpty is not
returned because no non-metadata key exists. -/
theorem c7_rmdir_amended_witness :
    (∃ fs', dbfs_create fs0 1 "d" DbfsFileType.dir 0 0 493
        = Except.ok (fs', fs0.nextIno) ∧
      ∀ b, fs'.db fs0.nextIno = some b →
        bucketGet b "." = none ∧ bucketGet b ".." = none) ∧
    (dbfs_rmdir c7fs 1 "d" = Except.error FsErr.notEmpty ↔
      ∃ kv ∈ mkInodeBucket 16877 0 0, isMetaKey kv.1 = false) :=
  ⟨c7_rmdir_amended.1 fs0 1 "d" 0 0 493 rootBucket rfl (by decide) (by decide),
   c7_rmdir_amended.2 c7fs 1 2 "d"
     (bucketPut (bucketPut rootBucket "d" (Val.num 2)) "hard_links" (Val.num 3))
     (mkInodeBucket 16877 0 0) (by decide) (by decide) (by decide)⟩

/-- C10: on the `TransactionManager`'s initial WAL — `WriteAheadLog::new()`,
whose storage was never set — `append` returns `Ok` while persisting nothing
(storage stays `None`, the cursor never moves, only the in-memory list
grows), `flush` returns `Ok`, and `recover` returns the empty list; so
WAL-backed commits run with no durability barrier at all. -/
theorem c10_wal_no_storage (t : Nat) (op : TransactionOperation) :
    TransactionManager.new.wal = WriteAheadLog.new ∧
    WriteAheadLog.new.storage = none ∧
    WriteAheadLog.new.append t op = Except.ok (appendCore WriteAheadLog.new t op) ∧
    (appendCore WriteAheadLog.new t op).entries = [{ txn_id := t, operation := op }] ∧
    (appendCore WriteAheadLog.new t op).storage = none ∧
    (appendCore WriteAheadLog.new t op).next_offset = 0 ∧
    WriteAheadLog.new.flush = Except.ok () ∧
    (appendCore WriteAheadLog.new t op).flush = Except.ok () ∧
    (WriteAheadLog.new.recover).1 = Except.ok [] ∧
    ((appendCore WriteAheadLog.new t op).recover).1 = Except.ok [] :=
  ⟨rfl, rfl, rfl, rfl, rfl, rfl, rfl, rfl, rfl, rfl⟩

end Dbfs
